import Mathlib

/-!
Verification development for the QdrantLoinc ingestion pipeline
(src/process_loinc.py).  The Python script reads the LOINC core table and
the Part lookup table, resolves cross-reference codes through the lookup,
embeds a descriptive text per row via an Ollama client, and upserts the
resulting points into a Qdrant collection in batches of 100.

The shallow embedding below translates the script faithfully:
pure helpers become Lean functions; the external services (Ollama client,
Qdrant store) are modelled at their interface boundary: the embedding
client is a function parameter, and the Qdrant store is a trace of
operations together with a state-transformer semantics (a collection is a
finite map from point id to vector and payload, upsert replaces by id,
recreate empties the collection).
-/

namespace QdrantLoinc

/-- Configuration constant from the script: the Qdrant collection name. -/
def COLLECTION_NAME : String := "loinc"

/-- Configuration constant from the script: the Ollama model identifier. -/
def OLLAMA_MODEL : String := "oscardp96/medcpt-article"

/-- One row of the LOINC core CSV, restricted to the columns the script
reads (`row[...]` accesses in `main`). -/
structure Row where
  LOINC_NUM : String
  COMPONENT : String
  PROPERTY : String
  TIME_ASPCT : String
  SYSTEM : String
  SCALE_TYP : String
  METHOD_TYP : String
  CLASS : String
  LONG_COMMON_NAME : String
deriving Repr, DecidableEq

/-- One row of the Part CSV, restricted to the two columns
`create_part_lookup` reads. -/
structure PartRow where
  PartNumber : String
  PartName : String
deriving Repr, DecidableEq

/-- Embedding of `create_part_lookup`: a Python dict built by iterating the
Part rows and assigning `part_lookup[row[PartNumber]] = row[PartName]`;
a later assignment to the same key overwrites the earlier one.  The dict is
modelled as a function from key to optional value, starting empty. -/
def create_part_lookup (rows : List PartRow) : String → Option String :=
  rows.foldl (fun acc row => fun k =>
    if k = row.PartNumber then some row.PartName else acc k) (fun _ => none)

/-- Embedding of Python `part_lookup.get(code, code)`: the resolved value
when present, otherwise the raw code itself. -/
def part_lookup_get (part_lookup : String → Option String) (code : String) : String :=
  (part_lookup code).getD code

/-- The response object of one `ollama_client.embed` call; the script reads
only its `embedding` field. -/
structure EmbedResponse where
  embedding : List Float
deriving Repr

/-- Embedding of `get_embedding`: one call to the client with the
configured model and the given text, returning the response embedding
field.  The client itself is external and passed as a parameter. -/
def get_embedding (client : String → String → EmbedResponse) (text : String) : List Float :=
  (client OLLAMA_MODEL text).embedding

/-- Embedding of `get_embedding` against a fallible client, for reasoning
about transient failures.  The client is indexed by attempt number so the
statement can record how many attempts the code performs: the source makes
exactly one call (attempt 0), inside no loop and no try/except, so a
failure of that single call propagates. -/
def get_embedding_attempts (attempt_call : Nat → Except String EmbedResponse) :
    Except String (List Float) :=
  match attempt_call 0 with
  | Except.ok r => Except.ok r.embedding
  | Except.error e => Except.error e

/-- The descriptive text the script builds for one row (`text_to_embed`),
with the five cross-reference fields resolved through the part lookup and
COMPONENT, LONG_COMMON_NAME, CLASS taken raw. -/
def text_to_embed (part_lookup : String → Option String) (row : Row) : String :=
  "This LOINC term is for \x27" ++ row.LONG_COMMON_NAME ++
  "\x27. Component: " ++ row.COMPONENT ++
  ". Property: " ++ part_lookup_get part_lookup row.PROPERTY ++
  ". Time Aspect: " ++ part_lookup_get part_lookup row.TIME_ASPCT ++
  ". System: " ++ part_lookup_get part_lookup row.SYSTEM ++
  ". Scale: " ++ part_lookup_get part_lookup row.SCALE_TYP ++
  ". Method: " ++ part_lookup_get part_lookup row.METHOD_TYP ++
  ". Class: " ++ row.CLASS ++ "."

/-- The payload dict the script attaches to one point, as an ordered
association list mirroring the Python dict literal. -/
def payload_of (part_lookup : String → Option String) (row : Row) :
    List (String × String) :=
  [("Fully-Specified Name", row.LONG_COMMON_NAME),
   ("LOINC code", row.LOINC_NUM),
   ("Component", row.COMPONENT),
   ("Property", part_lookup_get part_lookup row.PROPERTY),
   ("Time", part_lookup_get part_lookup row.TIME_ASPCT),
   ("System", part_lookup_get part_lookup row.SYSTEM),
   ("Scale", part_lookup_get part_lookup row.SCALE_TYP),
   ("Method", part_lookup_get part_lookup row.METHOD_TYP)]

/-- Embedding of `models.PointStruct(id=..., vector=..., payload=...)`. -/
structure PointStruct where
  id : Nat
  vector : List Float
  payload : List (String × String)

/-- One `qdrant_client.upsert(collection_name=..., wait=..., points=...)`
call as issued by the loop. -/
structure UpsertCall where
  collection_name : String
  wait : Bool
  points : List PointStruct

/-- The point the script builds for the row at 0-based enumeration index
`i`: id is `i + 1`, vector is the embedding of the descriptive text,
payload as in the dict literal. -/
def mkPoint (part_lookup : String → Option String)
    (client : String → String → EmbedResponse) (i : Nat) (row : Row) : PointStruct :=
  { id := i + 1,
    vector := get_embedding client (text_to_embed part_lookup row),
    payload := payload_of part_lookup row }

/-- Embedding of the `for i, row in enumerate(reader)` loop of `main`
together with the trailing `if points:` flush: `i` is the next enumeration
index, `points` the open batch.  Each iteration appends one point; when the
open batch reaches exactly 100 points it is committed by one upsert call
and a fresh batch is opened; after the loop a non-empty remainder is
committed by one final upsert call. -/
def process_rows_loop (part_lookup : String → Option String)
    (client : String → String → EmbedResponse) :
    Nat → List PointStruct → List Row → List UpsertCall
  | _, points, [] =>
    if points.isEmpty then [] else [{ collection_name := COLLECTION_NAME, wait := true, points := points }]
  | i, points, row :: rest =>
    let points2 := points ++ [mkPoint part_lookup client i row]
    if points2.length = 100 then
      { collection_name := COLLECTION_NAME, wait := true, points := points2 } ::
        process_rows_loop part_lookup client (i + 1) [] rest
    else
      process_rows_loop part_lookup client (i + 1) points2 rest

/-- The full sequence of upsert calls `main` issues for the given input
rows (loop started at index 0 with an empty open batch, as in the source). -/
def process_rows (part_lookup : String → Option String)
    (client : String → String → EmbedResponse) (rows : List Row) : List UpsertCall :=
  process_rows_loop part_lookup client 0 [] rows

/-- Specification-side description of the complete list of points the run
produces, in source order, used to state theorems about the batching loop:
the row at enumeration index `i` yields the point `mkPoint ... i`. -/
def pipeline_points (part_lookup : String → Option String)
    (client : String → String → EmbedResponse) : Nat → List Row → List PointStruct
  | _, [] => []
  | i, row :: rest =>
    mkPoint part_lookup client i row :: pipeline_points part_lookup client (i + 1) rest

/-- One Qdrant store operation issued by the script. -/
inductive QdrantOp where
  | recreate_collection (collection_name : String) (size : Nat) (distance : String)
  | upsert (collection_name : String) (wait : Bool) (points : List PointStruct)

/-- The result of one invocation of `main`: the store operations that took
effect, and the messages printed for the collection step. -/
structure MainResult where
  ops : List QdrantOp
  messages : List String

/-- Embedding of `main`.  `recreate_error` models the external outcome of
the `recreate_collection` call: `some e` when it raises exception `e`
(in which case the except branch prints the error and `main` returns with
no store effect), `none` when it succeeds.  On success, `main` recreates
the collection (size 768, Cosine distance) and then issues the loop
upserts. -/
def main (recreate_error : Option String) (part_rows : List PartRow)
    (client : String → String → EmbedResponse) (rows : List Row) : MainResult :=
  let part_lookup := create_part_lookup part_rows
  match recreate_error with
  | some e =>
    { ops := [], messages := ["Could not create collection: " ++ e] }
  | none =>
    { ops := QdrantOp.recreate_collection COLLECTION_NAME 768 "Cosine" ::
        (process_rows part_lookup client rows).map
          (fun c => QdrantOp.upsert c.collection_name c.wait c.points),
      messages := ["Collection \x27loinc\x27 created."] }

/-- The possible outcomes of running the script body. -/
inductive ScriptOutcome where
  | returned (r : MainResult)
  | raised (e : String)

/-- The `if __name__ == "__main__": main()` entry: the embedded `main`
always returns (its only fallible step is wrapped in try/except), so the
script terminates normally. -/
def run_script (recreate_error : Option String) (part_rows : List PartRow)
    (client : String → String → EmbedResponse) (rows : List Row) : ScriptOutcome :=
  ScriptOutcome.returned (main recreate_error part_rows client rows)

/-- Python process exit semantics for the script: exit code 0 when the
top-level call returns, 1 when an exception escapes. -/
def process_exit_code : ScriptOutcome → Nat
  | ScriptOutcome.returned _ => 0
  | ScriptOutcome.raised _ => 1

/-- A Qdrant collection state: a map from point id to the stored vector and
payload. -/
def QdrantState : Type := Nat → Option (List Float × List (String × String))

/-- Qdrant upsert semantics: points are inserted in order, each replacing
any existing point with the same id. -/
def upsert_points (st : QdrantState) (ps : List PointStruct) : QdrantState :=
  ps.foldl (fun s p => fun k => if k = p.id then some (p.vector, p.payload) else s k) st

/-- Qdrant semantics of one operation: `recreate_collection` deletes the
collection and creates a fresh empty one (destroying all stored points);
`upsert` writes the points by id. -/
def apply_op (st : QdrantState) : QdrantOp → QdrantState
  | QdrantOp.recreate_collection _ _ _ => fun _ => none
  | QdrantOp.upsert _ _ ps => upsert_points st ps

/-- The collection state after running a sequence of store operations from
a starting state. -/
def run_ops (st : QdrantState) (ops : List QdrantOp) : QdrantState :=
  ops.foldl apply_op st

/-! Helper lemmas about the batching loop and the store semantics. -/

/-- The points of the calls emitted by the loop, concatenated in order, are
exactly the open batch followed by the points of the remaining rows. -/
lemma join_process_rows_loop (part_lookup : String → Option String)
    (client : String → String → EmbedResponse) (rows : List Row) :
    ∀ (i : Nat) (acc : List PointStruct),
    ((process_rows_loop part_lookup client i acc rows).map UpsertCall.points).join =
      acc ++ pipeline_points part_lookup client i rows := by
  induction rows with
  | nil =>
    intro i acc
    by_cases h : acc.isEmpty
    · simp [process_rows_loop, h, pipeline_points, List.isEmpty_iff.mp h]
    · simp [process_rows_loop, h, pipeline_points]
  | cons row rest ih =>
    intro i acc
    by_cases h : (acc ++ [mkPoint part_lookup client i row]).length = 100
    · simp only [process_rows_loop, h, if_pos, List.map_cons, List.join_cons, ih,
        pipeline_points]
      simp
    · simp only [process_rows_loop, h, if_neg, not_false_iff, ih, pipeline_points]
      simp

/-- Every call emitted by the loop targets the configured collection, waits
for acknowledgment, and carries a non-empty batch of at most 100 points
(provided the open batch is below the cap, as it always is). -/
lemma process_rows_loop_calls_shape (part_lookup : String → Option String)
    (client : String → String → EmbedResponse) (rows : List Row) :
    ∀ (i : Nat) (acc : List PointStruct), acc.length < 100 →
    ∀ c ∈ process_rows_loop part_lookup client i acc rows,
      c.collection_name = COLLECTION_NAME ∧ c.wait = true ∧
      0 < c.points.length ∧ c.points.length ≤ 100 := by
  induction rows with
  | nil =>
    intro i acc hacc c hc
    by_cases h : acc.isEmpty
    · simp [process_rows_loop, h] at hc
    · simp [process_rows_loop, h] at hc
      subst hc
      refine ⟨rfl, rfl, ?_, le_of_lt hacc⟩
      simpa [List.isEmpty_iff, List.length_pos] using h
  | cons row rest ih =>
    intro i acc hacc c hc
    by_cases h : (acc ++ [mkPoint part_lookup client i row]).length = 100
    · simp only [process_rows_loop, h, if_pos, List.mem_cons] at hc
      rcases hc with rfl | hc
      · exact ⟨rfl, rfl, by simp [h], by simp [h]⟩
      · exact ih (i + 1) [] (by simp) c hc
    · simp only [process_rows_loop, h, if_neg, not_false_iff] at hc
      have hlen : (acc ++ [mkPoint part_lookup client i row]).length < 100 := by
        have : (acc ++ [mkPoint part_lookup client i row]).length = acc.length + 1 := by
          simp
        omega
      exact ih (i + 1) _ hlen c hc

/-- Every call except possibly the last carries exactly 100 points: the
loop commits exactly when the open batch reaches the cap. -/
lemma process_rows_loop_full_batches (part_lookup : String → Option String)
    (client : String → String → EmbedResponse) (rows : List Row) :
    ∀ (i : Nat) (acc : List PointStruct), acc.length < 100 →
    ∀ j, j + 1 < (process_rows_loop part_lookup client i acc rows).length →
      ((process_rows_loop part_lookup client i acc rows).get? j).map
        (fun c => c.points.length) = some 100 := by
  induction rows with
  | nil =>
    intro i acc hacc j hj
    by_cases h : acc.isEmpty <;> simp [process_rows_loop, h] at hj
  | cons row rest ih =>
    intro i acc hacc j hj
    by_cases h : (acc ++ [mkPoint part_lookup client i row]).length = 100
    · simp only [process_rows_loop, h, if_pos] at hj ⊢
      cases j with
      | zero => simp [List.get?, h]
      | succ j =>
        simp only [List.length_cons] at hj
        simpa [List.get?] using ih (i + 1) [] (by simp) j (by omega)
    · simp only [process_rows_loop, h, if_neg, not_false_iff] at hj ⊢
      have hlen : (acc ++ [mkPoint part_lookup client i row]).length < 100 := by
        have : (acc ++ [mkPoint part_lookup client i row]).length = acc.length + 1 := by
          simp
        omega
      exact ih (i + 1) _ hlen j hj

/-- Upserting a concatenation is upserting the two parts in sequence. -/
lemma upsert_points_append (st : QdrantState) (a b : List PointStruct) :
    upsert_points st (a ++ b) = upsert_points (upsert_points st a) b := by
  simp [upsert_points, List.foldl_append]

/-- Running the upsert operations derived from a list of calls is the same
as upserting all their points, in call order. -/
lemma run_ops_upserts (calls : List UpsertCall) :
    ∀ st : QdrantState,
    run_ops st (calls.map (fun c => QdrantOp.upsert c.collection_name c.wait c.points)) =
      upsert_points st ((calls.map UpsertCall.points).join) := by
  induction calls with
  | nil => intro st; simp [run_ops, upsert_points]
  | cons c cs ih =>
    intro st
    simp only [List.map_cons, List.join_cons, run_ops, List.foldl_cons, apply_op,
      upsert_points_append]
    exact ih (upsert_points st c.points)

/-- The number of points produced equals the number of input rows. -/
lemma pipeline_points_length (part_lookup : String → Option String)
    (client : String → String → EmbedResponse) (rows : List Row) :
    ∀ i, (pipeline_points part_lookup client i rows).length = rows.length := by
  induction rows with
  | nil => intro i; simp [pipeline_points]
  | cons row rest ih => intro i; simp [pipeline_points, ih]

/-- The point at position `j` of the produced stream is the point built
from the row at position `j`, with enumeration index `i + j`. -/
lemma pipeline_points_get? (part_lookup : String → Option String)
    (client : String → String → EmbedResponse) (rows : List Row) :
    ∀ i j, (pipeline_points part_lookup client i rows).get? j =
      (rows.get? j).map (fun r => mkPoint part_lookup client (i + j) r) := by
  induction rows with
  | nil => intro i j; simp [pipeline_points]
  | cons row rest ih =>
    intro i j
    cases j with
    | zero => simp [pipeline_points]
    | succ j =>
      simp only [pipeline_points, List.get?]
      rw [ih (i + 1) j]
      have : i + 1 + j = i + (j + 1) := by omega
      rw [this]

/-- Closed form of the collection state after upserting the pipeline
points over a starting state: ids `i + 1` through `i + rows.length` hold
the corresponding row content, all other ids are untouched. -/
lemma pipeline_state (part_lookup : String → Option String)
    (client : String → String → EmbedResponse) (rows : List Row) :
    ∀ (i : Nat) (st : QdrantState) (k : Nat),
    upsert_points st (pipeline_points part_lookup client i rows) k =
      if i + 1 ≤ k ∧ k ≤ i + rows.length then
        (rows.get? (k - i - 1)).map (fun r =>
          (get_embedding client (text_to_embed part_lookup r), payload_of part_lookup r))
      else st k := by
  induction rows with
  | nil =>
    intro i st k
    have h : ¬ (i + 1 ≤ k ∧ k ≤ i) := by omega
    simp [pipeline_points, upsert_points, h]
  | cons row rest ih =>
    intro i st k
    have step : upsert_points st (pipeline_points part_lookup client i (row :: rest)) =
        upsert_points (fun k2 =>
          if k2 = i + 1 then
            some (get_embedding client (text_to_embed part_lookup row), payload_of part_lookup row)
          else st k2)
          (pipeline_points part_lookup client (i + 1) rest) := by
      simp [pipeline_points, upsert_points, mkPoint, List.foldl_cons]
    rw [step, ih (i + 1) _ k]
    by_cases hA : i + 1 + 1 ≤ k ∧ k ≤ i + 1 + rest.length
    · have hO : i + 1 ≤ k ∧ k ≤ i + (row :: rest).length := by
        simp only [List.length_cons]; omega
      have hidx : k - i - 1 = (k - (i + 1) - 1) + 1 := by omega
      rw [if_pos hA, if_pos hO, hidx]
      simp [List.get?]
    · by_cases hk : k = i + 1
      · have hO : i + 1 ≤ k ∧ k ≤ i + (row :: rest).length := by
          simp only [List.length_cons]; omega
        have hidx : k - i - 1 = 0 := by omega
        rw [if_neg hA, if_pos hO, hidx]
        simp [hk, List.get?]
      · have hO : ¬ (i + 1 ≤ k ∧ k ≤ i + (row :: rest).length) := by
          simp only [List.length_cons]
          omega
        rw [if_neg hA, if_neg hO]
        simp [hk]

/-- The operations `main` issues when the collection step succeeds: one
recreate followed by the loop upserts. -/
lemma main_none_ops (part_rows : List PartRow)
    (client : String → String → EmbedResponse) (rows : List Row) :
    (main none part_rows client rows).ops =
      QdrantOp.recreate_collection COLLECTION_NAME 768 "Cosine" ::
        (process_rows (create_part_lookup part_rows) client rows).map
          (fun c => QdrantOp.upsert c.collection_name c.wait c.points) := rfl

/-- Closed form of the collection state produced by a successful run of
`main` from any starting state: the recreate step discards the starting
state, then all pipeline points are upserted into the fresh collection. -/
lemma main_state (part_rows : List PartRow)
    (client : String → String → EmbedResponse) (rows : List Row)
    (st0 : QdrantState) (k : Nat) :
    run_ops st0 (main none part_rows client rows).ops k =
      upsert_points (fun _ => none)
        (pipeline_points (create_part_lookup part_rows) client 0 rows) k := by
  rw [main_none_ops]
  have h2 : run_ops st0
      (QdrantOp.recreate_collection COLLECTION_NAME 768 "Cosine" ::
        (process_rows (create_part_lookup part_rows) client rows).map
          (fun c => QdrantOp.upsert c.collection_name c.wait c.points)) =
      run_ops (fun _ => none)
        ((process_rows (create_part_lookup part_rows) client rows).map
          (fun c => QdrantOp.upsert c.collection_name c.wait c.points)) := rfl
  rw [h2, run_ops_upserts, process_rows, join_process_rows_loop]
  simp

/-- Closed form of the dict built by `create_part_lookup` over an arbitrary
initial dict: the value at a key is the PartName of the last row with that
PartNumber, or the initial dict entry when no row matches. -/
lemma create_part_lookup_foldl (rows : List PartRow) :
    ∀ (acc : String → Option String) (k : String),
    (rows.foldl (fun acc row => fun k2 =>
        if k2 = row.PartNumber then some row.PartName else acc k2) acc) k =
      (rows.reverse.find? (fun r => r.PartNumber == k)).elim (acc k)
        (fun r => some r.PartName) := by
  induction rows with
  | nil => intro acc k; simp
  | cons row rest ih =>
    intro acc k
    simp only [List.foldl_cons, List.reverse_cons, List.find?_append]
    rw [ih]
    cases hfind : rest.reverse.find? (fun r => r.PartNumber == k) with
    | some r => simp [hfind, Option.or]
    | none =>
      by_cases hk : k = row.PartNumber
      · simp [hfind, Option.or, List.find?, hk]
      · have : (row.PartNumber == k) = false := by
          simp [hk]
          intro hc
          exact hk hc.symm
        simp [hfind, Option.or, List.find?, this, hk]

/-- The lookup built by `create_part_lookup` maps a key to the PartName of
the last Part row carrying that PartNumber, and to nothing when no row
carries it. -/
lemma create_part_lookup_spec (rows : List PartRow) (k : String) :
    create_part_lookup rows k =
      (rows.reverse.find? (fun r => r.PartNumber == k)).elim none
        (fun r => some r.PartName) := by
  unfold create_part_lookup
  exact create_part_lookup_foldl rows (fun _ => none) k

/-- The produced point ids are a deterministic function of source
position: the point at 0-based position `j` carries id `j + 1`, whatever
the lookup table and the embedding client. -/
lemma pipeline_points_id (pl : String → Option String)
    (client : String → String → EmbedResponse) (rows : List Row) (j : Nat) :
    ((pipeline_points pl client 0 rows).get? j).map PointStruct.id =
      if j < rows.length then some (j + 1) else none := by
  rw [pipeline_points_get?]
  cases h : rows.get? j with
  | none =>
    have hlen : rows.length ≤ j := List.get?_eq_none.mp h
    simp [Nat.not_lt.mpr hlen]
  | some r =>
    have hlen : j < rows.length := by
      rcases List.get?_eq_some.mp h with ⟨hb, _⟩
      exact hb
    simp [hlen, mkPoint]

/-- Closed form of the collection state after a successful run of `main`:
for every id `k` with `1 ≤ k ≤ rows.length` the collection holds exactly
the vector and payload built from the row at position `k - 1`; every other
id is absent, whatever the starting state. -/
lemma main_state_closed (part_rows : List PartRow)
    (client : String → String → EmbedResponse) (rows : List Row)
    (st0 : QdrantState) (k : Nat) :
    run_ops st0 (main none part_rows client rows).ops k =
      if 1 ≤ k ∧ k ≤ rows.length then
        (rows.get? (k - 1)).map (fun r =>
          (get_embedding client (text_to_embed (create_part_lookup part_rows) r),
           payload_of (create_part_lookup part_rows) r))
      else none := by
  rw [main_state, pipeline_state]
  simp

/-! Concrete sample data used by witnesses and counterexamples. -/

/-- A sample LOINC row. -/
def rowA : Row :=
  { LOINC_NUM := "1-1", COMPONENT := "LP1", PROPERTY := "LP2",
    TIME_ASPCT := "LP3", SYSTEM := "LP4", SCALE_TYP := "LP5",
    METHOD_TYP := "LP6", CLASS := "CHEM", LONG_COMMON_NAME := "Sample term one" }

/-- A second sample LOINC row. -/
def rowB : Row :=
  { LOINC_NUM := "2-2", COMPONENT := "LP7", PROPERTY := "LP8",
    TIME_ASPCT := "LP9", SYSTEM := "LP10", SCALE_TYP := "LP11",
    METHOD_TYP := "LP12", CLASS := "HEM", LONG_COMMON_NAME := "Sample term two" }

/-- An embedding client that answers every request with the empty vector. -/
def client0 : String → String → EmbedResponse :=
  fun _ _ => { embedding := [] }

/-- An embedding client that answers every request with a 5-element vector,
shorter than the configured collection dimensionality of 768. -/
def client5 : String → String → EmbedResponse :=
  fun _ _ => { embedding := [0.0, 0.0, 0.0, 0.0, 0.0] }

/-- A fallible, attempt-indexed embedding client that fails transiently on
the first attempt and would succeed on every later attempt. -/
def failing_then_ok_client : Nat → Except String EmbedResponse :=
  fun n => if n = 0 then Except.error "timeout" else Except.ok { embedding := [] }

/-- A pre-existing collection state holding one point at id 5. -/
def stExisting : QdrantState :=
  fun k => if k = 5 then some ([], [("LOINC code", "old-data")]) else none

/-- A sample Part row. -/
def partA : PartRow := { PartNumber := "LP1", PartName := "First name" }

/-- A second sample Part row with the same PartNumber as `partA`. -/
def partB : PartRow := { PartNumber := "LP1", PartName := "Second name" }

/-! Claim C1. -/

/-- C1 counterexample: the claim says the ingestion path never implicitly
recreates (and thereby destroys) an existing collection, succeeding as a
no-op when the configuration matches.  In the code, a successful run of
`main` over an empty input issues `recreate_collection` as its only store
operation and thereby erases the point stored at id 5 of the pre-existing
collection. -/
theorem C1_counterexample :
    stExisting 5 ≠ none ∧
    (main none [] client0 []).ops =
      [QdrantOp.recreate_collection "loinc" 768 "Cosine"] ∧
    run_ops stExisting (main none [] client0 []).ops 5 = none := by
  refine ⟨?_, rfl, rfl⟩
  simp [stExisting]

/-- C1 amended: every successful run starts by unconditionally recreating
the collection, so the final state never depends on the pre-existing
collection state; there is no configuration check and no
IndexConfigConflictError.  When the recreate call itself fails, `main`
prints the error and returns without issuing any store operation. -/
theorem C1_amended (part_rows : List PartRow)
    (client : String → String → EmbedResponse) (rows : List Row)
    (st0 st0' : QdrantState) (k : Nat) (err : String) :
    (main none part_rows client rows).ops.head? =
      some (QdrantOp.recreate_collection "loinc" 768 "Cosine") ∧
    run_ops st0 (main none part_rows client rows).ops k =
      run_ops st0' (main none part_rows client rows).ops k ∧
    (main (some err) part_rows client rows).ops = [] ∧
    (main (some err) part_rows client rows).messages =
      ["Could not create collection: " ++ err] := by
  refine ⟨?_, ?_, rfl, rfl⟩
  · rw [main_none_ops]; rfl
  · rw [main_state, main_state]

/-! Claim C2. -/

/-- C2: running ingestion twice over the same input assigns each source row
the same point identifier in both runs (the id is the deterministic
function position + 1 of the source position), and the resulting collection
holds exactly one point per identifier, with vector and payload equal to
those produced by the latest run, and nothing else — no duplication. -/
theorem C2_ingest_twice_idempotent (part_rows : List PartRow)
    (client1 client2 : String → String → EmbedResponse) (rows : List Row)
    (st0 : QdrantState) :
    (∀ j, ((pipeline_points (create_part_lookup part_rows) client1 0 rows).get? j).map
        PointStruct.id = if j < rows.length then some (j + 1) else none) ∧
    (∀ j, ((pipeline_points (create_part_lookup part_rows) client1 0 rows).get? j).map
        PointStruct.id =
      ((pipeline_points (create_part_lookup part_rows) client2 0 rows).get? j).map
        PointStruct.id) ∧
    (∀ k, run_ops (run_ops st0 (main none part_rows client1 rows).ops)
        (main none part_rows client2 rows).ops k =
      if 1 ≤ k ∧ k ≤ rows.length then
        (rows.get? (k - 1)).map (fun r =>
          (get_embedding client2 (text_to_embed (create_part_lookup part_rows) r),
           payload_of (create_part_lookup part_rows) r))
      else none) := by
  refine ⟨fun j => pipeline_points_id _ _ _ _, fun j => ?_, fun k => main_state_closed _ _ _ _ _⟩
  rw [pipeline_points_get?, pipeline_points_get?]
  cases rows.get? j <;> simp [mkPoint]

/-! Claim C3. -/

/-- C3: the cross-reference fields are resolved independently: for every
record and for each of PROPERTY, TIME_ASPCT, SYSTEM, SCALE_TYP, METHOD_TYP
on its own, if the lookup table has no entry for that field's code then the
resolved value equals the original raw code string (hence non-empty
whenever the raw code is) and the stored payload carries the raw code for
that field — regardless of whether any other field's code hits the table;
resolution is a total function and never raises. -/
theorem C3_missing_entry_pass_through (pl : String → Option String) (row : Row) :
    (pl row.PROPERTY = none →
      part_lookup_get pl row.PROPERTY = row.PROPERTY ∧
      (row.PROPERTY ≠ "" → part_lookup_get pl row.PROPERTY ≠ "") ∧
      ("Property", row.PROPERTY) ∈ payload_of pl row) ∧
    (pl row.TIME_ASPCT = none →
      part_lookup_get pl row.TIME_ASPCT = row.TIME_ASPCT ∧
      (row.TIME_ASPCT ≠ "" → part_lookup_get pl row.TIME_ASPCT ≠ "") ∧
      ("Time", row.TIME_ASPCT) ∈ payload_of pl row) ∧
    (pl row.SYSTEM = none →
      part_lookup_get pl row.SYSTEM = row.SYSTEM ∧
      (row.SYSTEM ≠ "" → part_lookup_get pl row.SYSTEM ≠ "") ∧
      ("System", row.SYSTEM) ∈ payload_of pl row) ∧
    (pl row.SCALE_TYP = none →
      part_lookup_get pl row.SCALE_TYP = row.SCALE_TYP ∧
      (row.SCALE_TYP ≠ "" → part_lookup_get pl row.SCALE_TYP ≠ "") ∧
      ("Scale", row.SCALE_TYP) ∈ payload_of pl row) ∧
    (pl row.METHOD_TYP = none →
      part_lookup_get pl row.METHOD_TYP = row.METHOD_TYP ∧
      (row.METHOD_TYP ≠ "" → part_lookup_get pl row.METHOD_TYP ≠ "") ∧
      ("Method", row.METHOD_TYP) ∈ payload_of pl row) := by
  refine ⟨fun h => ?_, fun h => ?_, fun h => ?_, fun h => ?_, fun h => ?_⟩
  · have hr : part_lookup_get pl row.PROPERTY = row.PROPERTY := by
      simp [part_lookup_get, h]
    exact ⟨hr, fun hne => by rw [hr]; exact hne, by simp [payload_of, hr]⟩
  · have hr : part_lookup_get pl row.TIME_ASPCT = row.TIME_ASPCT := by
      simp [part_lookup_get, h]
    exact ⟨hr, fun hne => by rw [hr]; exact hne, by simp [payload_of, hr]⟩
  · have hr : part_lookup_get pl row.SYSTEM = row.SYSTEM := by
      simp [part_lookup_get, h]
    exact ⟨hr, fun hne => by rw [hr]; exact hne, by simp [payload_of, hr]⟩
  · have hr : part_lookup_get pl row.SCALE_TYP = row.SCALE_TYP := by
      simp [part_lookup_get, h]
    exact ⟨hr, fun hne => by rw [hr]; exact hne, by simp [payload_of, hr]⟩
  · have hr : part_lookup_get pl row.METHOD_TYP = row.METHOD_TYP := by
      simp [part_lookup_get, h]
    exact ⟨hr, fun hne => by rw [hr]; exact hne, by simp [payload_of, hr]⟩

/-- A Part row resolving the SYSTEM code of the sample row. -/
def partD : PartRow := { PartNumber := "LP4", PartName := "Resolved system" }

/-- C3 witness: the theorem applied to a lookup table that hits the sample
row SYSTEM code while missing its PROPERTY code: PROPERTY still passes
through raw into the resolved value and the payload, even though SYSTEM
resolves to a display name. -/
theorem C3_witness :
    part_lookup_get (create_part_lookup [partD]) rowA.PROPERTY = rowA.PROPERTY ∧
    ("Property", rowA.PROPERTY) ∈ payload_of (create_part_lookup [partD]) rowA ∧
    part_lookup_get (create_part_lookup [partD]) rowA.SYSTEM = "Resolved system" := by
  have h := (C3_missing_entry_pass_through (create_part_lookup [partD]) rowA).1 rfl
  exact ⟨h.1, h.2.2, rfl⟩

/-! Claim C4. -/

/-- C4: the loop commits points in batches of at most 100: every upsert
call targets the configured collection with wait set, carries a non-empty
batch of at most 100 points, every call except possibly the last carries
exactly 100 points (a commit happens exactly when the open batch reaches
the cap), the source-exhausted remainder is committed by the final call,
and the concatenation of all committed batches is exactly the full point
stream — every produced point appears in exactly one committed batch. -/
theorem C4_batch_commit (pl : String → Option String)
    (client : String → String → EmbedResponse) (rows : List Row) :
    (∀ c ∈ process_rows pl client rows,
      c.collection_name = "loinc" ∧ c.wait = true ∧
      0 < c.points.length ∧ c.points.length ≤ 100) ∧
    ((process_rows pl client rows).map UpsertCall.points).join =
      pipeline_points pl client 0 rows ∧
    (∀ j, j + 1 < (process_rows pl client rows).length →
      ((process_rows pl client rows).get? j).map (fun c => c.points.length) =
        some 100) := by
  refine ⟨?_, ?_, ?_⟩
  · exact process_rows_loop_calls_shape pl client rows 0 [] (by simp)
  · rw [process_rows, join_process_rows_loop]; simp
  · exact process_rows_loop_full_batches pl client rows 0 [] (by simp)

set_option maxRecDepth 4000 in
/-- C4 witness: the theorem applied to a 101-row input, giving a first
committed batch of exactly 100 points. -/
theorem C4_witness :
    ((process_rows (create_part_lookup []) client0 (List.replicate 101 rowA)).get? 0).map
      (fun c => c.points.length) = some 100 :=
  (C4_batch_commit (create_part_lookup []) client0 (List.replicate 101 rowA)).2.2 0
    (by rw [show (process_rows (create_part_lookup []) client0
        (List.replicate 101 rowA)).length = 2 from rfl]; omega)

/-! Claim C5. -/

/-- C5 counterexample: the claim says the pipeline supports resuming from a
caller-supplied offset N, skipping exactly the first N source records.  In
the code, `main` takes no offset: a run over the two sample rows commits
points for both of them (ids 1 and 2), so no invocation can skip the first
record, and the first record is re-embedded and re-committed even when the
starting state already holds it. -/
theorem C5_counterexample :
    (((process_rows (create_part_lookup []) client0 [rowA, rowB]).map
        UpsertCall.points).join).map PointStruct.id = [1, 2] ∧
    (run_ops (fun _ => none) (main none [] client0 [rowA, rowB]).ops 1).isSome =
      true := by
  exact ⟨rfl, rfl⟩

/-- C5 amended: the pipeline has no resume-from-offset capability: `main`
takes no offset, every run processes all source records from position zero
(committing exactly one point per source row, with ids 1 through n), and
the final collection state is the state produced from a freshly recreated
collection, independent of any progress a previous run had made. -/
theorem C5_no_resume (part_rows : List PartRow)
    (client : String → String → EmbedResponse) (rows : List Row)
    (st0 : QdrantState) :
    (((process_rows (create_part_lookup part_rows) client rows).map
        UpsertCall.points).join).length = rows.length ∧
    (∀ j, ((((process_rows (create_part_lookup part_rows) client rows).map
        UpsertCall.points).join).get? j).map PointStruct.id =
      if j < rows.length then some (j + 1) else none) ∧
    (∀ k, run_ops st0 (main none part_rows client rows).ops k =
      upsert_points (fun _ => none)
        (pipeline_points (create_part_lookup part_rows) client 0 rows) k) := by
  have hjoin : ((process_rows (create_part_lookup part_rows) client rows).map
      UpsertCall.points).join =
      pipeline_points (create_part_lookup part_rows) client 0 rows := by
    rw [process_rows, join_process_rows_loop]; simp
  refine ⟨?_, ?_, ?_⟩
  · rw [hjoin, pipeline_points_length]
  · intro j; rw [hjoin]; exact pipeline_points_id _ _ _ _
  · intro k; exact main_state _ _ _ _ _

/-! Claim C6. -/

/-- C6 counterexample: the claim says a vector whose length differs from
the configured 768 aborts the run with DimensionMismatchError before any
commit, with zero points written.  In the code, a client answering with a
5-element vector causes no abort: the run issues the recreate and an upsert
(two store operations) and the final collection holds the point for the
sample row with that 5-element vector. -/
theorem C6_counterexample :
    (get_embedding client5 (text_to_embed (create_part_lookup []) rowA)).length = 5 ∧
    (main none [] client5 [rowA]).ops.length = 2 ∧
    ((run_ops (fun _ => none) (main none [] client5 [rowA]).ops 1).map
      (fun p => p.1.length)) = some 5 := by
  exact ⟨rfl, rfl, rfl⟩

/-- C6 amended: the pipeline performs no dimensionality check: whatever
vector the embedding client returns is stored unchanged in the committed
point of its record, the run always proceeds to commit (at least one upsert
operation is issued whenever the input is non-empty), and there is no
DimensionMismatchError. -/
theorem C6_no_dimension_check (part_rows : List PartRow)
    (client : String → String → EmbedResponse) (rows : List Row)
    (st0 : QdrantState) :
    (∀ k, run_ops st0 (main none part_rows client rows).ops k =
      if 1 ≤ k ∧ k ≤ rows.length then
        (rows.get? (k - 1)).map (fun r =>
          (get_embedding client (text_to_embed (create_part_lookup part_rows) r),
           payload_of (create_part_lookup part_rows) r))
      else none) ∧
    (rows ≠ [] → 2 ≤ (main none part_rows client rows).ops.length) := by
  refine ⟨fun k => main_state_closed _ _ _ _ _, fun hne => ?_⟩
  rw [main_none_ops]
  simp only [List.length_cons, List.length_map]
  have hjoin : ((process_rows (create_part_lookup part_rows) client rows).map
      UpsertCall.points).join =
      pipeline_points (create_part_lookup part_rows) client 0 rows := by
    rw [process_rows, join_process_rows_loop]; simp
  have hne2 : process_rows (create_part_lookup part_rows) client rows ≠ [] := by
    intro hc
    have : (pipeline_points (create_part_lookup part_rows) client 0 rows).length =
        rows.length := pipeline_points_length _ _ _ _
    rw [← hjoin, hc] at this
    simp at this
    exact hne (List.length_eq_zero.mp this.symm)
  have : 0 < (process_rows (create_part_lookup part_rows) client rows).length :=
    List.length_pos.mpr hne2
  omega

/-- C6 witness: the amended theorem applied to the 5-dimensional client
and the sample row, extracting that the run still issues store writes. -/
theorem C6_witness :
    2 ≤ (main none [] client5 [rowA]).ops.length :=
  (C6_no_dimension_check [] client5 [rowA] (fun _ => none)).2 (by simp)

/-! Claim C7. -/

/-- C7 counterexample: the claim says a transient embedding failure is
retried with bounded exponential backoff up to 3 attempts and only
exhaustion surfaces an EmbeddingUnavailableError.  In the code, the client
call is made exactly once with no retry: against a client that fails
transiently on attempt 0 but would succeed on attempts 1 and 2, the call
surfaces the transient error immediately. -/
theorem C7_counterexample :
    get_embedding_attempts failing_then_ok_client = Except.error "timeout" ∧
    failing_then_ok_client 1 = Except.ok { embedding := [] } ∧
    failing_then_ok_client 2 = Except.ok { embedding := [] } := by
  exact ⟨rfl, rfl, rfl⟩

/-- C7 amended: `get_embedding` makes exactly one embedding request with no
retry and no backoff: its result depends only on the first attempt, and a
failure of that single attempt propagates unchanged — there is no
EmbeddingUnavailableError and no record-identifier tagging. -/
theorem C7_single_attempt (c1 c2 : Nat → Except String EmbedResponse)
    (hagree : c1 0 = c2 0) (e : String) (hfail : c1 0 = Except.error e) :
    get_embedding_attempts c1 = get_embedding_attempts c2 ∧
    get_embedding_attempts c1 = Except.error e := by
  constructor
  · unfold get_embedding_attempts
    rw [hagree]
  · unfold get_embedding_attempts
    rw [hfail]

/-- C7 witness: the amended theorem applied to the transiently failing
client. -/
theorem C7_witness :
    get_embedding_attempts failing_then_ok_client =
      get_embedding_attempts failing_then_ok_client ∧
    get_embedding_attempts failing_then_ok_client = Except.error "timeout" :=
  C7_single_attempt failing_then_ok_client failing_then_ok_client rfl "timeout" rfl

/-! Claim C8. -/

/-- C8 counterexample: the claim says a fatal abort (such as failure to
create the collection) yields a nonzero exit code.  In the code, when the
recreate call fails the except branch prints the error and `main` returns,
so the process exits with code 0 even though the run aborted with no store
operation issued. -/
theorem C8_counterexample :
    process_exit_code (run_script (some "connection refused") [] client0 []) = 0 ∧
    (main (some "connection refused") [] client0 []).ops = [] ∧
    (main (some "connection refused") [] client0 []).messages =
      ["Could not create collection: connection refused"] := by
  exact ⟨rfl, rfl, rfl⟩

/-- C8 amended: the script exits with code 0 whenever `main` returns —
both on a fully completed run and on a collection-creation failure, which
`main` catches, reports via a printed message, and handles by returning
early with no store operations; there are no distinct exit codes and no
CompletedWithErrors status. -/
theorem C8_exit_always_zero (recreate_error : Option String)
    (part_rows : List PartRow) (client : String → String → EmbedResponse)
    (rows : List Row) :
    process_exit_code (run_script recreate_error part_rows client rows) = 0 ∧
    (∀ e, recreate_error = some e →
      (main recreate_error part_rows client rows).ops = [] ∧
      (main recreate_error part_rows client rows).messages =
        ["Could not create collection: " ++ e]) := by
  refine ⟨rfl, ?_⟩
  intro e he
  subst he
  exact ⟨rfl, rfl⟩

/-- C8 witness: the amended theorem applied to a failing recreate call. -/
theorem C8_witness :
    process_exit_code (run_script (some "boom") [] client0 []) = 0 ∧
    (main (some "boom") [] client0 []).ops = [] := by
  have h := C8_exit_always_zero (some "boom") [] client0 []
  exact ⟨h.1, (h.2 "boom" rfl).1⟩

/-! Claim C9. -/

/-- C9: when the Part source contains two or more rows with the same
PartNumber, the constructed lookup table maps that PartNumber to the
PartName of the last such row in file order — later entries overwrite
earlier ones, and loading is a total function that never fails on
duplicates. -/
theorem C9_last_duplicate_wins (pre mid post : List PartRow) (r1 r2 : PartRow)
    (_hdup : r1.PartNumber = r2.PartNumber)
    (hpost : ∀ r ∈ post, r.PartNumber ≠ r2.PartNumber) :
    create_part_lookup (pre ++ r1 :: mid ++ r2 :: post) r2.PartNumber =
      some r2.PartName := by
  rw [create_part_lookup_spec]
  have hrev : (pre ++ r1 :: mid ++ r2 :: post).reverse =
      post.reverse ++ r2 :: (mid.reverse ++ r1 :: pre.reverse) := by
    simp
  rw [hrev, List.find?_append]
  have hnone : post.reverse.find? (fun r => r.PartNumber == r2.PartNumber) = none := by
    rw [List.find?_eq_none]
    intro r hr
    simp only [beq_iff_eq]
    exact hpost r (List.mem_reverse.mp hr)
  rw [hnone]
  simp [List.find?]

/-- C9 witness: the theorem applied to a two-row Part file whose rows share
one PartNumber; the lookup yields the second PartName. -/
theorem C9_witness :
    create_part_lookup ([] ++ partA :: [] ++ partB :: []) partB.PartNumber =
      some partB.PartName :=
  C9_last_duplicate_wins [] [] [] partA partB rfl (by simp)

/-! Claim C10. -/

/-- C10: the COMPONENT field is never resolved through the lookup table:
its raw value appears verbatim in the payload (under the Component key)
and verbatim inside the text sent for embedding, and both the payload and
the text depend on the lookup table only through the five cross-reference
codes PROPERTY, TIME_ASPCT, SYSTEM, SCALE_TYP, METHOD_TYP — two lookup
tables agreeing on those five codes (but arbitrary elsewhere, in
particular at the COMPONENT value) produce identical text and payload. -/
theorem C10_component_raw (pl pl2 : String → Option String) (row : Row)
    (hp : pl row.PROPERTY = pl2 row.PROPERTY)
    (ht : pl row.TIME_ASPCT = pl2 row.TIME_ASPCT)
    (hs : pl row.SYSTEM = pl2 row.SYSTEM)
    (hsc : pl row.SCALE_TYP = pl2 row.SCALE_TYP)
    (hm : pl row.METHOD_TYP = pl2 row.METHOD_TYP) :
    (payload_of pl row).lookup "Component" = some row.COMPONENT ∧
    (∃ s2 : String, text_to_embed pl row =
      ("This LOINC term is for \x27" ++ row.LONG_COMMON_NAME ++
        "\x27. Component: ") ++ row.COMPONENT ++ s2) ∧
    payload_of pl row = payload_of pl2 row ∧
    text_to_embed pl row = text_to_embed pl2 row := by
  refine ⟨?_, ?_, ?_, ?_⟩
  · rfl
  · refine ⟨". Property: " ++ part_lookup_get pl row.PROPERTY ++
      ". Time Aspect: " ++ part_lookup_get pl row.TIME_ASPCT ++
      ". System: " ++ part_lookup_get pl row.SYSTEM ++
      ". Scale: " ++ part_lookup_get pl row.SCALE_TYP ++
      ". Method: " ++ part_lookup_get pl row.METHOD_TYP ++
      ". Class: " ++ row.CLASS ++ ".", ?_⟩
    simp [text_to_embed, String.append_assoc]
  · simp [payload_of, part_lookup_get, hp, ht, hs, hsc, hm]
  · simp [text_to_embed, part_lookup_get, hp, ht, hs, hsc, hm]

/-- A Part row carrying the PartNumber that is the COMPONENT value of the
sample row, to exercise a lookup table that could resolve COMPONENT. -/
def partC : PartRow := { PartNumber := "LP1", PartName := "Resolved component" }

/-- C10 witness: the theorem applied to a lookup table holding an entry for
the sample row COMPONENT value and to the empty table: the two tables agree
on the five cross-reference codes, the payload Component entry stays the
raw value, and payload and text coincide. -/
theorem C10_witness :
    (payload_of (create_part_lookup [partC]) rowA).lookup "Component" =
      some rowA.COMPONENT ∧
    payload_of (create_part_lookup [partC]) rowA =
      payload_of (create_part_lookup []) rowA := by
  have h := C10_component_raw (create_part_lookup [partC]) (create_part_lookup [])
    rowA rfl rfl rfl rfl rfl
  exact ⟨h.1, h.2.2.1⟩

end QdrantLoinc
